import Mathlib

/-!
Verification of the investment lifecycle & valuation engine of the
gripinvest backend.  The definitions below are a shallow embedding of the
JavaScript source: DECIMAL/number values become `ℚ`, timestamps become `ℚ`
(milliseconds since epoch, mirroring `Date.getTime()`), nullable columns
become `Option`, and `Math.round` becomes `jsRound` (round half toward
positive infinity, as in JavaScript).
-/

namespace GripInvest

/-- Product types, from the `investment_type` ENUM of `investment_products`. -/
inductive InvestmentType
  | bond | fd | mf | etf | other
  deriving DecidableEq, Repr, Fintype

/-- Risk levels, from the `risk_level` ENUM. -/
inductive RiskLevel
  | low | moderate | high
  deriving DecidableEq, Repr, Fintype

/-- Investment status ENUM (`active`, `matured`, `cancelled`). -/
inductive InvStatus
  | active | matured | cancelled
  deriving DecidableEq, Repr

/-- `investment_products` row (fields used by the engine).
`max_investment` is nullable (`Option`); a Sequelize DECIMAL is non-null
exactly when the JS truthiness test `product.max_investment` passes. -/
structure InvestmentProduct where
  id : Nat
  name : String
  investment_type : InvestmentType
  tenure_months : Nat
  annual_yield : ℚ
  risk_level : RiskLevel
  min_investment : ℚ
  max_investment : Option ℚ
  is_active : Bool
  deriving DecidableEq, Repr

/-- `investments` row (fields used by the engine). -/
structure Investment where
  id : Nat
  user_id : Nat
  product_id : Nat
  amount : ℚ
  invested_at : ℚ
  status : InvStatus
  expected_return : ℚ
  actual_return : Option ℚ
  maturity_date : ℚ
  notes : Option String
  deriving DecidableEq, Repr

/-- JavaScript `Math.round`: round half toward positive infinity. -/
def jsRound (q : ℚ) : ℤ := ⌊q + 1 / 2⌋

/-- `Math.round(x * 100) / 100`: round to 2 decimal places. -/
def round2 (q : ℚ) : ℚ := (jsRound (q * 100) : ℚ) / 100

/-- The time-interpolation block of `Investment.prototype.getCurrentValue`
(models/index.js): progress = elapsed / total, clamped by the two guard
branches, value rounded to 2 decimals. -/
def interpolatedValue (inv : Investment) (sysNow : ℚ) : ℚ :=
  let totalDuration := inv.maturity_date - inv.invested_at
  let elapsedDuration := sysNow - inv.invested_at
  if elapsedDuration ≤ 0 then inv.amount
  else if totalDuration ≤ elapsedDuration then inv.expected_return
  else round2 (inv.amount +
    (inv.expected_return - inv.amount) * (elapsedDuration / totalDuration))

/-- `Investment.prototype.getCurrentValue`.  The JS method takes no time
argument: `sysNow` models the ambient `new Date()` read inside the method
body.  A settled (`matured` with non-null `actual_return`) investment
returns `actual_return`; everything else is interpolated. -/
def getCurrentValue (inv : Investment) (sysNow : ℚ) : ℚ :=
  match inv.status, inv.actual_return with
  | .matured, some r => r
  | _, _ => interpolatedValue inv sysNow

/-- `Investment.prototype.getDaysToMaturity`: 0 when matured, else
`Math.max(0, Math.ceil((maturity - now) / 86400000))`.  `sysNow` models
the ambient `new Date()` read inside the method body. -/
def getDaysToMaturity (inv : Investment) (sysNow : ℚ) : ℤ :=
  if inv.status = .matured then 0
  else max 0 ⌈(inv.maturity_date - sysNow) / 86400000⌉

/-- `InvestmentProduct.prototype.calculateExpectedReturn(amount, months)`:
`tenureMonths = months || this.tenure_months` (JS: `0` and `null` both
falsy), then `amount * (1 + annual_yield/100/12) ^ tenureMonths`. -/
def calculateExpectedReturn (p : InvestmentProduct) (amount : ℚ)
    (months : Option Nat) : ℚ :=
  let tenureMonths :=
    match months with
    | some m => if m = 0 then p.tenure_months else m
    | none => p.tenure_months
  amount * (1 + p.annual_yield / 100 / 12) ^ tenureMonths

/-- The `expected_return` assignment of the Investment `beforeCreate` hook
(models/index.js): `product.calculateExpectedReturn(investment.amount)`
with the optional `months` argument omitted.  (The hook also sets
`maturity_date` to `invested_at` advanced by `tenure_months` calendar
months via `Date.setMonth`; no claim inspects that value.) -/
def hookExpectedReturn (p : InvestmentProduct) (amount : ℚ) : ℚ :=
  calculateExpectedReturn p amount none

/-- Product used by the spec's worked example and the repository's tests:
12% annual yield, 12-month tenure, bounds 1000/100000. -/
def exampleProduct : InvestmentProduct :=
  { id := 1, name := "Test Bond", investment_type := .bond
    tenure_months := 12, annual_yield := 12, risk_level := .low
    min_investment := 1000, max_investment := some 100000, is_active := true }

lemma getCurrentValue_eq_interpolated (inv : Investment) (t : ℚ)
    (h : ¬(inv.status = .matured ∧ inv.actual_return.isSome)) :
    getCurrentValue inv t = interpolatedValue inv t := by
  rcases hs : inv.status <;> rcases ha : inv.actual_return <;>
    simp_all [getCurrentValue]

/-- C1: `getCurrentValue` returns `actual_return` for a settled matured
investment; otherwise it returns `amount` unchanged at or before
`invested_at`, `expected_return` unchanged at or after `maturity_date`,
and in between the linear interpolation
`amount + (expected_return - amount) * elapsed/total` rounded to 2
decimal places. -/
theorem getCurrentValue_spec (inv : Investment) (sysNow : ℚ)
    (hord : inv.invested_at < inv.maturity_date) :
    (∀ r, inv.status = .matured → inv.actual_return = some r →
      getCurrentValue inv sysNow = r)
    ∧ (¬(inv.status = .matured ∧ inv.actual_return.isSome) →
        (sysNow ≤ inv.invested_at → getCurrentValue inv sysNow = inv.amount)
        ∧ (inv.maturity_date ≤ sysNow →
            getCurrentValue inv sysNow = inv.expected_return)
        ∧ (inv.invested_at < sysNow → sysNow < inv.maturity_date →
            getCurrentValue inv sysNow =
              round2 (inv.amount + (inv.expected_return - inv.amount) *
                ((sysNow - inv.invested_at) /
                  (inv.maturity_date - inv.invested_at))))) := by
  constructor
  · intro r hs ha
    simp [getCurrentValue, hs, ha]
  · intro hns
    rw [getCurrentValue_eq_interpolated inv sysNow hns]
    refine ⟨fun h => ?_, fun h => ?_, fun h1 h2 => ?_⟩
    · simp only [interpolatedValue]
      rw [if_pos (by linarith)]
    · simp only [interpolatedValue]
      rw [if_neg (by linarith), if_pos (by linarith)]
    · simp only [interpolatedValue]
      rw [if_neg (by linarith), if_neg (by linarith)]

/-- Witness for C1 at a concrete investment strictly between purchase and
maturity. -/
theorem getCurrentValue_spec_witness :
    getCurrentValue
      { id := 1, user_id := 1, product_id := 1, amount := 1000
        invested_at := 0, status := .active, expected_return := 1200
        actual_return := none, maturity_date := 200, notes := none } 100
      = 1100 := by
  have h := getCurrentValue_spec
    { id := 1, user_id := 1, product_id := 1, amount := 1000
      invested_at := 0, status := .active, expected_return := 1200
      actual_return := none, maturity_date := 200, notes := none } 100
    (by norm_num)
  have h2 := (h.2 (by simp)).2.2 (by norm_num) (by norm_num)
  rw [h2]; norm_num [round2, jsRound]

/-- C2: the expected return computed at investment creation is
`amount * (1 + annual_yield/100/12) ^ tenure_months` (monthly
compounding), and for amount 1000, yield 12%, tenure 12 months it is
1126.83 after rounding to currency precision. -/
theorem expectedReturn_monthly_compounding (p : InvestmentProduct) (amount : ℚ) :
    hookExpectedReturn p amount
      = amount * (1 + p.annual_yield / 100 / 12) ^ p.tenure_months
    ∧ round2 (hookExpectedReturn exampleProduct 1000) = 1126.83 := by
  constructor
  · rfl
  · norm_num [round2, jsRound, hookExpectedReturn, calculateExpectedReturn,
      exampleProduct]

/-- An active investment held over two days, used to exhibit the ambient-time
dependence of the valuation methods. -/
def clockInv : Investment :=
  { id := 1, user_id := 1, product_id := 1, amount := 1000
    invested_at := 0, status := .active, expected_return := 1200
    actual_return := none, maturity_date := 172800000, notes := none }

lemma getDaysToMaturity_eval (inv : Investment) (t : ℚ) (n : ℤ)
    (hs : inv.status ≠ .matured)
    (hne : ⌈(inv.maturity_date - t) / 86400000⌉ = n) :
    getDaysToMaturity inv t = max 0 n := by
  unfold getDaysToMaturity
  rw [if_neg hs, hne]

/-- C3 counterexample: `getCurrentValue` and `getDaysToMaturity` take no
`now` argument in the source — they call `new Date()` internally.  With the
method's explicit inputs (the investment record) held fixed, the results
change as the ambient system clock advances by one day, so the valuation
does depend on ambient system time and the clock is not injected. -/
theorem valuation_reads_ambient_time :
    getCurrentValue clockInv 0 ≠ getCurrentValue clockInv 86400000
    ∧ getDaysToMaturity clockInv 0 ≠ getDaysToMaturity clockInv 86400000 := by
  have h1 : getCurrentValue clockInv 0 = 1000 := by
    simp [getCurrentValue, clockInv, interpolatedValue]
  have h2 : getCurrentValue clockInv 86400000 = 1100 := by
    simp only [getCurrentValue, clockInv, interpolatedValue]
    norm_num [round2, jsRound]
  have h3 : getDaysToMaturity clockInv 0 = 2 := by
    rw [getDaysToMaturity_eval clockInv 0 2 (by simp [clockInv])
      (by rw [show clockInv.maturity_date = 172800000 from rfl, Int.ceil_eq_iff]
          constructor <;> norm_num)]
    decide
  have h4 : getDaysToMaturity clockInv 86400000 = 1 := by
    rw [getDaysToMaturity_eval clockInv 86400000 1 (by simp [clockInv])
      (by rw [show clockInv.maturity_date = 172800000 from rfl, Int.ceil_eq_iff]
          constructor <;> norm_num)]
    decide
  rw [h1, h2, h3, h4]
  norm_num

/-- C3 amended: the valuation results are determined by the investment's
valuation fields (status, actual_return, amount, invested_at,
maturity_date, expected_return) together with the ambient instant at which
`new Date()` is read — they do not depend on the remaining record fields,
so two evaluations of the same snapshot at the same ambient instant
coincide. -/
theorem valuation_snapshot_determinism (a b : Investment) (t : ℚ)
    (hs : a.status = b.status) (har : a.actual_return = b.actual_return)
    (ham : a.amount = b.amount) (hin : a.invested_at = b.invested_at)
    (hma : a.maturity_date = b.maturity_date)
    (her : a.expected_return = b.expected_return) :
    getCurrentValue a t = getCurrentValue b t
    ∧ getDaysToMaturity a t = getDaysToMaturity b t := by
  constructor
  · simp only [getCurrentValue, interpolatedValue, hs, har, ham, hin, hma, her]
  · simp only [getDaysToMaturity, hs, hma]

/-- `clockInv` with different identifiers and notes but the same valuation
fields. -/
def clockInvRelabelled : Investment :=
  { clockInv with id := 9, user_id := 9, product_id := 9, notes := some "x" }

/-- Witness for C3 amended: two records differing only in id, user, product
and notes are valued identically at the same ambient instant. -/
theorem valuation_snapshot_determinism_witness :
    getCurrentValue clockInv 86400000 =
      getCurrentValue clockInvRelabelled 86400000 :=
  (valuation_snapshot_determinism clockInv clockInvRelabelled 86400000
    rfl rfl rfl rfl rfl rfl).1

/-- An active investment whose maturity date has already passed. -/
def overdueInv : Investment :=
  { id := 2, user_id := 1, product_id := 1, amount := 1000
    invested_at := 0, status := .active, expected_return := 1200
    actual_return := none, maturity_date := 86400000, notes := none }

/-- C4 counterexample: an `active` (not matured) investment one day past
its maturity date has `getDaysToMaturity = 0`, refuting "0 exactly when
status = matured"; and two instants one hour apart, both before maturity,
give the same day count, refuting strict decrease as `now` advances. -/
theorem daysToMaturity_zero_without_maturity :
    getDaysToMaturity overdueInv 172800000 = 0
    ∧ overdueInv.status = .active
    ∧ getDaysToMaturity overdueInv 3600000 = getDaysToMaturity overdueInv 7200000
    ∧ (3600000 : ℚ) < 7200000 ∧ (7200000 : ℚ) < overdueInv.maturity_date := by
  have e1 : getDaysToMaturity overdueInv 172800000 = 0 := by
    rw [getDaysToMaturity_eval overdueInv 172800000 (-1) (by simp [overdueInv])
      (by rw [show overdueInv.maturity_date = 86400000 from rfl, Int.ceil_eq_iff]
          constructor <;> norm_num)]
    decide
  have e2 : getDaysToMaturity overdueInv 3600000 = 1 := by
    rw [getDaysToMaturity_eval overdueInv 3600000 1 (by simp [overdueInv])
      (by rw [show overdueInv.maturity_date = 86400000 from rfl, Int.ceil_eq_iff]
          constructor <;> norm_num)]
    decide
  have e3 : getDaysToMaturity overdueInv 7200000 = 1 := by
    rw [getDaysToMaturity_eval overdueInv 7200000 1 (by simp [overdueInv])
      (by rw [show overdueInv.maturity_date = 86400000 from rfl, Int.ceil_eq_iff]
          constructor <;> norm_num)]
    decide
  refine ⟨e1, rfl, by rw [e2, e3], by norm_num, by norm_num [overdueInv]⟩

/-- C4 amended: `getDaysToMaturity` is a non-negative integer; `matured`
always yields 0; a non-matured investment yields
`max 0 ⌈(maturity_date - now) / 1 day⌉`, which is 0 exactly when `now` has
reached `maturity_date`; and the count is non-increasing (not strictly
decreasing) as `now` advances. -/
theorem getDaysToMaturity_spec (inv : Investment) (t u : ℚ) (htu : t ≤ u) :
    0 ≤ getDaysToMaturity inv t
    ∧ (inv.status = .matured → getDaysToMaturity inv t = 0)
    ∧ (inv.status ≠ .matured →
        getDaysToMaturity inv t = max 0 ⌈(inv.maturity_date - t) / 86400000⌉
        ∧ (getDaysToMaturity inv t = 0 ↔ inv.maturity_date ≤ t))
    ∧ getDaysToMaturity inv u ≤ getDaysToMaturity inv t := by
  refine ⟨?_, fun h => by simp [getDaysToMaturity, h], fun h => ⟨?_, ?_⟩, ?_⟩
  · unfold getDaysToMaturity
    split
    · exact le_refl 0
    · exact le_max_left 0 _
  · unfold getDaysToMaturity
    rw [if_neg h]
  · unfold getDaysToMaturity
    rw [if_neg h]
    constructor
    · intro h0
      have hc : ⌈(inv.maturity_date - t) / 86400000⌉ ≤ 0 :=
        h0 ▸ le_max_right 0 _
      rw [Int.ceil_le, Int.cast_zero, div_nonpos_iff] at hc
      rcases hc with ⟨_, h2⟩ | ⟨h1, _⟩
      · norm_num at h2
      · linarith
    · intro hle
      have hc : ⌈(inv.maturity_date - t) / 86400000⌉ ≤ 0 := by
        rw [Int.ceil_le, Int.cast_zero]
        apply div_nonpos_of_nonpos_of_nonneg <;> linarith
      exact max_eq_left hc
  · unfold getDaysToMaturity
    split
    · exact le_refl 0
    · refine max_le_max (le_refl 0) (Int.ceil_le_ceil ?_)
      have hd : (0:ℚ) < 86400000 := by norm_num
      rw [div_le_div_iff_of_pos_right hd]
      linarith

/-- Witness for C4 amended at a concrete non-matured investment and a pair
of ordered instants. -/
theorem getDaysToMaturity_spec_witness :
    getDaysToMaturity overdueInv 0 = max 0 ⌈(overdueInv.maturity_date - 0) / 86400000⌉
    ∧ getDaysToMaturity overdueInv 3600000 ≤ getDaysToMaturity overdueInv 0 := by
  have h := getDaysToMaturity_spec overdueInv 0 3600000 (by norm_num)
  exact ⟨(h.2.2.1 (by simp [overdueInv])).1, h.2.2.2⟩

/-- Result of `customValidations.validateInvestmentAmount`
(utils/validation.js): the two rejection reasons carry the violated bound,
mirroring the "Minimum investment amount is ₹X" / "Maximum investment
amount is ₹X" messages. -/
inductive AmountValidation
  | valid
  | belowMinimum (minAmount : ℚ)
  | aboveMaximum (maxAmount : ℚ)
  deriving DecidableEq, Repr

/-- `customValidations.validateInvestmentAmount(amount, product)`: reject
below `min_investment`; reject above `max_investment` only when that
column is non-null (the JS truthiness test on a non-null Sequelize DECIMAL
passes). -/
def validateInvestmentAmount (amount : ℚ) (p : InvestmentProduct) :
    AmountValidation :=
  if amount < p.min_investment then .belowMinimum p.min_investment
  else
    match p.max_investment with
    | some mx => if mx < amount then .aboveMaximum mx else .valid
    | none => .valid

/-- Rejections of the create-investment route. -/
inductive CreateError
  | productNotFound
  | invalidAmount (reason : AmountValidation)
  deriving DecidableEq, Repr

/-- The object literal passed to `Investment.create` by the route. -/
structure InvestmentDraft where
  user_id : Nat
  product_id : Nat
  amount : ℚ
  notes : Option String
  deriving DecidableEq, Repr

/-- `POST /` of routes/investments.js: the product lookup is scoped
`is_active: true` (an inactive product is NotFound), then the amount is
validated, then `Investment.create({user_id, product_id, amount, notes})`
is called. -/
def createInvestment (p : InvestmentProduct) (userId : Nat) (amount : ℚ)
    (notes : Option String) : Except CreateError InvestmentDraft :=
  if p.is_active = false then .error .productNotFound
  else
    match validateInvestmentAmount amount p with
    | .belowMinimum m => .error (.invalidAmount (.belowMinimum m))
    | .aboveMaximum m => .error (.invalidAmount (.aboveMaximum m))
    | .valid =>
        .ok { user_id := userId, product_id := p.id, amount := amount
              notes := notes }

/-- C5: for an active product (with the model invariant that a non-null
`max_investment` exceeds `min_investment`), create rejects below-minimum
when `amount < min_investment`, rejects above-maximum when
`max_investment` is set and exceeded, and succeeds when
`min_investment ≤ amount` and no set upper bound is exceeded — a missing
`max_investment` imposing no upper bound. -/
theorem create_amount_bounds (p : InvestmentProduct) (uid : Nat) (amount : ℚ)
    (notes : Option String) (hact : p.is_active = true)
    (hmaxmin : ∀ mx, p.max_investment = some mx → p.min_investment < mx) :
    (amount < p.min_investment →
      createInvestment p uid amount notes
        = .error (.invalidAmount (.belowMinimum p.min_investment)))
    ∧ (∀ mx, p.max_investment = some mx → mx < amount →
        createInvestment p uid amount notes
          = .error (.invalidAmount (.aboveMaximum mx)))
    ∧ (p.min_investment ≤ amount →
        (∀ mx, p.max_investment = some mx → amount ≤ mx) →
        createInvestment p uid amount notes
          = .ok { user_id := uid, product_id := p.id, amount := amount
                  notes := notes }) := by
  have hact' : ¬(p.is_active = false) := by simp [hact]
  refine ⟨fun hlo => ?_, fun mx hmx hhi => ?_, fun hge hmax => ?_⟩
  · unfold createInvestment validateInvestmentAmount
    rw [if_neg hact', if_pos hlo]
  · have hnlo : ¬(amount < p.min_investment) := by
      have := hmaxmin mx hmx
      push_neg
      linarith
    unfold createInvestment validateInvestmentAmount
    rw [if_neg hact', if_neg hnlo, hmx]
    simp [if_pos hhi]
  · have hnlo : ¬(amount < p.min_investment) := not_lt.mpr hge
    unfold createInvestment validateInvestmentAmount
    rw [if_neg hact', if_neg hnlo]
    rcases hcase : p.max_investment with _ | mx
    · rfl
    · have : ¬(mx < amount) := not_lt.mpr (hmax mx hcase)
      simp [this]

/-- Witness for C5 on the spec's worked example (min 1000, max 100000):
amount 500 is rejected below-minimum, 150000 above-maximum, 5000 accepted. -/
theorem create_amount_bounds_witness :
    createInvestment exampleProduct 7 500 none
      = .error (.invalidAmount (.belowMinimum 1000))
    ∧ createInvestment exampleProduct 7 150000 none
      = .error (.invalidAmount (.aboveMaximum 100000))
    ∧ createInvestment exampleProduct 7 5000 none
      = .ok { user_id := 7, product_id := 1, amount := 5000, notes := none } := by
  have hmm : ∀ mx, exampleProduct.max_investment = some mx →
      exampleProduct.min_investment < mx := by
    intro mx hmx
    rw [show exampleProduct.max_investment = some 100000 from rfl] at hmx
    injection hmx with h
    rw [← h]
    norm_num [exampleProduct]
  refine ⟨?_, ?_, ?_⟩
  · exact (create_amount_bounds exampleProduct 7 500 none rfl hmm).1
      (by norm_num [exampleProduct])
  · exact (create_amount_bounds exampleProduct 7 150000 none rfl hmm).2.1
      100000 rfl (by norm_num)
  · exact (create_amount_bounds exampleProduct 7 5000 none rfl hmm).2.2
      (by norm_num [exampleProduct])
      (by intro mx hmx; injection hmx with h; rw [← h]; norm_num)

/-- Rejections of the cancel route. -/
inductive CancelError
  | alreadyMatured
  | alreadyCancelled
  deriving DecidableEq, Repr

/-- `PUT /:id/cancel` of routes/investments.js, after the ownership lookup:
matured → 400 "Cannot cancel matured investment"; cancelled → 400
"Investment already cancelled"; otherwise `update({ status: 'cancelled' })`. -/
def cancelInvestment (inv : Investment) : Except CancelError Investment :=
  if inv.status = .matured then .error .alreadyMatured
  else if inv.status = .cancelled then .error .alreadyCancelled
  else .ok { inv with status := .cancelled }

/-- C6: cancel rejects `AlreadyMatured` on a matured investment and
`AlreadyCancelled` on a cancelled one; on an active investment it succeeds,
the result's status is `cancelled`, and `expected_return`, `maturity_date`
(and every other field) are unchanged. -/
theorem cancel_spec (inv : Investment) :
    (inv.status = .matured → cancelInvestment inv = .error .alreadyMatured)
    ∧ (inv.status = .cancelled →
        cancelInvestment inv = .error .alreadyCancelled)
    ∧ (inv.status = .active →
        cancelInvestment inv = .ok { inv with status := .cancelled }
        ∧ ∀ inv', cancelInvestment inv = .ok inv' →
            inv'.status = .cancelled
            ∧ inv'.expected_return = inv.expected_return
            ∧ inv'.maturity_date = inv.maturity_date) := by
  refine ⟨fun h => ?_, fun h => ?_, fun h => ⟨?_, fun inv' hok => ?_⟩⟩
  · unfold cancelInvestment
    rw [if_pos h]
  · unfold cancelInvestment
    rw [if_neg (by simp [h]), if_pos h]
  · unfold cancelInvestment
    rw [if_neg (by simp [h]), if_neg (by simp [h])]
  · unfold cancelInvestment at hok
    rw [if_neg (by simp [h]), if_neg (by simp [h])] at hok
    injection hok with h'
    rw [← h']
    exact ⟨rfl, rfl, rfl⟩

/-- Witness for C6: cancelling the concrete active investment `clockInv`. -/
theorem cancel_spec_witness :
    cancelInvestment clockInv = .ok { clockInv with status := .cancelled } :=
  ((cancel_spec clockInv).2.2 rfl).1

/-- Per-request outcome of the cancel route, as seen by one caller. -/
inductive CancelOutcome
  | success
  | rejectedMatured
  | rejectedCancelled
  deriving DecidableEq, Repr

/-- State of two concurrent cancel requests against one stored investment
status: what each request has read (`findOne`) and the outcome it has
produced, plus the stored status itself. -/
structure CancelRace where
  store : InvStatus
  read0 : Option InvStatus
  read1 : Option InvStatus
  done0 : Option CancelOutcome
  done1 : Option CancelOutcome
  deriving DecidableEq, Repr

/-- The status-check-and-update of the cancel route applied to a
previously read status: the route's `update` is unconditional (no
compare-and-swap), so a request that read `active` always writes
`cancelled` and reports success. -/
def cancelDecision (v : InvStatus) (store : InvStatus) :
    CancelOutcome × InvStatus :=
  match v with
  | .matured => (.rejectedMatured, store)
  | .cancelled => (.rejectedCancelled, store)
  | .active => (.success, .cancelled)

/-- One scheduler step: the chosen request performs its next action —
first its read of the stored status, then its decision/write. -/
def raceStep (s : CancelRace) (tid : Bool) : CancelRace :=
  if tid = false then
    match s.read0 with
    | none => { s with read0 := some s.store }
    | some v =>
      match s.done0 with
      | some _ => s
      | none =>
          let r := cancelDecision v s.store
          { s with done0 := some r.1, store := r.2 }
  else
    match s.read1 with
    | none => { s with read1 := some s.store }
    | some v =>
      match s.done1 with
      | some _ => s
      | none =>
          let r := cancelDecision v s.store
          { s with done1 := some r.1, store := r.2 }

/-- Run two concurrent cancel requests under an interleaving schedule
(`false` = request 0 acts, `true` = request 1 acts). -/
def runCancelRace (schedule : List Bool) (init : InvStatus) : CancelRace :=
  schedule.foldl raceStep
    { store := init, read0 := none, read1 := none, done0 := none
      done1 := none }

/-- C7 counterexample: under the interleaving read₀, read₁, write₀, write₁
both requests read `active` before either unconditional update runs, so
both report success — the route has no compare-and-swap and two concurrent
cancels are not guaranteed one success and one `AlreadyCancelled`. -/
theorem concurrent_cancel_double_success :
    (runCancelRace [false, true, false, true] .active).done0
        = some .success
    ∧ (runCancelRace [false, true, false, true] .active).done1
        = some .success := by
  constructor <;> rfl

/-- C7 amended: the cancel route is a non-atomic read-then-update, so only
non-interleaved executions are guaranteed exclusive: when one request
completes before the other starts (either order), exactly one reports
success and the other `AlreadyCancelled`, and the stored status ends
`cancelled`. -/
theorem serial_cancel_exactly_one_success :
    ((runCancelRace [false, false, true, true] .active).done0
        = some .success
      ∧ (runCancelRace [false, false, true, true] .active).done1
          = some .rejectedCancelled
      ∧ (runCancelRace [false, false, true, true] .active).store
          = .cancelled)
    ∧ ((runCancelRace [true, true, false, false] .active).done0
        = some .rejectedCancelled
      ∧ (runCancelRace [true, true, false, false] .active).done1
          = some .success
      ∧ (runCancelRace [true, true, false, false] .active).store
          = .cancelled) := by
  refine ⟨⟨rfl, rfl, rfl⟩, ⟨rfl, rfl, rfl⟩⟩

/-- `calculateDiversificationScore` (portfolio routes): the inputs are the
key counts `Object.keys(typeAllocation).length` and
`Object.keys(riskAllocation).length`; 60% weight for type diversity over
5 types, 40% for risk diversity over 3 levels, `Math.round`ed. -/
def calculateDiversificationScore (typeCount riskCount : ℕ) : ℤ :=
  jsRound (min ((typeCount : ℚ) / 5) 1 * 60 + min ((riskCount : ℚ) / 3) 1 * 40)

lemma diversification_bounds : ∀ a : ℕ, a ≤ 5 → ∀ b : ℕ, b ≤ 3 →
    (calculateDiversificationScore a b = 100 ↔ a = 5 ∧ b = 3)
    ∧ (calculateDiversificationScore a b = 0 ↔ a = 0 ∧ b = 0) := by
  intro a ha b hb
  interval_cases a <;> interval_cases b <;>
    norm_num [calculateDiversificationScore, jsRound, min_def]

/-- C8: the diversification score is
`round(min(types/5,1)*60 + min(risks/3,1)*40)` over the distinct type and
risk buckets; it is 100 exactly when the buckets span all 5 product types
and all 3 risk levels, and 0 exactly when both bucket sets are empty. -/
theorem diversificationScore_spec (tb : Finset InvestmentType)
    (rb : Finset RiskLevel) :
    calculateDiversificationScore tb.card rb.card
      = jsRound (min ((tb.card : ℚ) / 5) 1 * 60 + min ((rb.card : ℚ) / 3) 1 * 40)
    ∧ (calculateDiversificationScore tb.card rb.card = 100
        ↔ tb = Finset.univ ∧ rb = Finset.univ)
    ∧ (calculateDiversificationScore tb.card rb.card = 0
        ↔ tb = ∅ ∧ rb = ∅) := by
  have h5 : Fintype.card InvestmentType = 5 := rfl
  have h3 : Fintype.card RiskLevel = 3 := rfl
  have htb : tb.card ≤ 5 := by
    have h := Finset.card_le_univ tb
    rwa [h5] at h
  have hrb : rb.card ≤ 3 := by
    have h := Finset.card_le_univ rb
    rwa [h3] at h
  have hb := diversification_bounds tb.card htb rb.card hrb
  refine ⟨rfl, ?_, ?_⟩
  · rw [hb.1]
    constructor
    · rintro ⟨ht, hr⟩
      exact ⟨(Finset.card_eq_iff_eq_univ tb).mp (by rw [ht, h5]),
        (Finset.card_eq_iff_eq_univ rb).mp (by rw [hr, h3])⟩
    · rintro ⟨ht, hr⟩
      rw [ht, hr, Finset.card_univ, Finset.card_univ, h5, h3]
      exact ⟨rfl, rfl⟩
  · rw [hb.2]
    rw [Finset.card_eq_zero, Finset.card_eq_zero]

/-- An investment row joined with its product, as returned by the
Sequelize `include: product` queries of the portfolio routes. -/
structure Holding where
  investment : Investment
  product : InvestmentProduct
  deriving DecidableEq, Repr

/-- The fixed tenure buckets of the allocation route: `'0-12 months'`,
`'13-24 months'`, `'25-36 months'`, `'37+ months'`. -/
inductive TenureRange
  | upTo12 | from13to24 | from25to36 | from37plus
  deriving DecidableEq, Repr, Fintype

/-- The tenure-range chain of ifs of `GET /allocation`. -/
def tenureRangeOf (tenure : ℕ) : TenureRange :=
  if tenure ≤ 12 then .upTo12
  else if tenure ≤ 24 then .from13to24
  else if tenure ≤ 36 then .from25to36
  else .from37plus

/-- The `where: { status: 'active' }` restriction of the allocation query. -/
def activeHoldings (l : List Holding) : List Holding :=
  l.filter (fun h => h.investment.status = .active)

/-- `totalValue` of `GET /allocation`: sum of `getCurrentValue()` over the
active holdings; `sysNow` models the ambient clock read inside
`getCurrentValue`. -/
def totalPortfolioValue (l : List Holding) (sysNow : ℚ) : ℚ :=
  ((activeHoldings l).map (fun h => getCurrentValue h.investment sysNow)).sum

/-- One bucket of an allocation axis: the summed current value of the
active holdings whose key (type, risk, or tenure range) is `k`. -/
def bucketValue {K : Type} [DecidableEq K] (key : Holding → K) (k : K)
    (l : List Holding) (sysNow : ℚ) : ℚ :=
  (((activeHoldings l).filter (fun h => key h = k)).map
    (fun h => getCurrentValue h.investment sysNow)).sum

/-- `convertToPercentages` of `GET /allocation`:
`totalValue > 0 ? value / totalValue * 100 : 0`. -/
def bucketPercentage {K : Type} [DecidableEq K] (key : Holding → K) (k : K)
    (l : List Holding) (sysNow : ℚ) : ℚ :=
  if 0 < totalPortfolioValue l sysNow then
    bucketValue key k l sysNow / totalPortfolioValue l sysNow * 100
  else 0

/-- Allocation axis: `investment.product.investment_type`. -/
def typeKey (h : Holding) : InvestmentType := h.product.investment_type

/-- Allocation axis: `investment.product.risk_level`. -/
def riskKey (h : Holding) : RiskLevel := h.product.risk_level

/-- Allocation axis: tenure range of `investment.product.tenure_months`. -/
def tenureKey (h : Holding) : TenureRange :=
  tenureRangeOf h.product.tenure_months

lemma sum_filter_map_sum {α K : Type} [Fintype K] [DecidableEq K]
    (v : α → ℚ) (key : α → K) (l : List α) :
    ∑ k ∈ Finset.univ, ((l.filter (fun a => key a = k)).map v).sum
      = (l.map v).sum := by
  induction l with
  | nil => simp
  | cons a l ih =>
      have hstep : ∀ k : K,
          (((a :: l).filter (fun x => key x = k)).map v).sum
            = (if key a = k then v a else 0)
              + ((l.filter (fun x => key x = k)).map v).sum := by
        intro k
        by_cases h : key a = k
        · simp [List.filter_cons, h]
        · simp [List.filter_cons, h]
      rw [Finset.sum_congr rfl fun k _ => hstep k, Finset.sum_add_distrib, ih]
      simp [Finset.sum_ite_eq]

lemma sum_bucketValue {K : Type} [Fintype K] [DecidableEq K]
    (key : Holding → K) (l : List Holding) (t : ℚ) :
    ∑ k ∈ Finset.univ, bucketValue key k l t = totalPortfolioValue l t := by
  simp only [bucketValue, totalPortfolioValue]
  exact sum_filter_map_sum _ key (activeHoldings l)

lemma pct_axis_sum {K : Type} [Fintype K] [DecidableEq K]
    (key : Holding → K) (l : List Holding) (t : ℚ)
    (h : 0 < totalPortfolioValue l t) :
    ∑ k ∈ Finset.univ, bucketPercentage key k l t = 100 := by
  have hne : totalPortfolioValue l t ≠ 0 := ne_of_gt h
  have hrw : ∀ k : K, bucketPercentage key k l t
      = bucketValue key k l t * (100 / totalPortfolioValue l t) := by
    intro k
    unfold bucketPercentage
    rw [if_pos h]
    ring
  rw [Finset.sum_congr rfl fun k _ => hrw k, ← Finset.sum_mul, sum_bucketValue]
  field_simp

/-- C9: allocation counts only `status = active` holdings; on each of the
three axes (product type, risk level, fixed tenure ranges) the bucket
percentages sum to exactly 100 when the total active current value is
positive, and every bucket percentage is 0 when the total is 0; a
non-active holding changes neither the total nor any bucket. -/
theorem allocation_percentages (l : List Holding) (t : ℚ) :
    (0 < totalPortfolioValue l t →
      ∑ k ∈ Finset.univ, bucketPercentage typeKey k l t = 100
      ∧ ∑ k ∈ Finset.univ, bucketPercentage riskKey k l t = 100
      ∧ ∑ k ∈ Finset.univ, bucketPercentage tenureKey k l t = 100)
    ∧ (totalPortfolioValue l t = 0 →
      ∀ (kt : InvestmentType) (kr : RiskLevel) (kn : TenureRange),
        bucketPercentage typeKey kt l t = 0
        ∧ bucketPercentage riskKey kr l t = 0
        ∧ bucketPercentage tenureKey kn l t = 0)
    ∧ (∀ x : Holding, x.investment.status ≠ .active →
        totalPortfolioValue (x :: l) t = totalPortfolioValue l t
        ∧ ∀ (kt : InvestmentType) (kr : RiskLevel) (kn : TenureRange),
            bucketValue typeKey kt (x :: l) t = bucketValue typeKey kt l t
            ∧ bucketValue riskKey kr (x :: l) t = bucketValue riskKey kr l t
            ∧ bucketValue tenureKey kn (x :: l) t
                = bucketValue tenureKey kn l t) := by
  refine ⟨fun h => ⟨pct_axis_sum typeKey l t h, pct_axis_sum riskKey l t h,
      pct_axis_sum tenureKey l t h⟩, fun h0 kt kr kn => ?_, fun x hx => ?_⟩
  · have hno : ¬(0 < totalPortfolioValue l t) := by rw [h0]; exact lt_irrefl 0
    unfold bucketPercentage
    rw [if_neg hno, if_neg hno, if_neg hno]
    exact ⟨rfl, rfl, rfl⟩
  · have ha : activeHoldings (x :: l) = activeHoldings l := by
      unfold activeHoldings
      rw [List.filter_cons, if_neg (by simpa using hx)]
    refine ⟨?_, fun kt kr kn => ⟨?_, ?_, ?_⟩⟩ <;>
      simp only [totalPortfolioValue, bucketValue, ha]

/-- A concrete active holding: `clockInv` in the example bond product. -/
def sampleHolding : Holding :=
  { investment := clockInv, product := exampleProduct }

/-- Witness for C9: with one active holding worth 1000, the total is
positive and the type-axis percentages sum to 100. -/
theorem allocation_percentages_witness :
    ∑ k ∈ Finset.univ, bucketPercentage typeKey k [sampleHolding] 0 = 100 := by
  have h1 : getCurrentValue clockInv 0 = 1000 := by
    simp [getCurrentValue, clockInv, interpolatedValue]
  have hpos : 0 < totalPortfolioValue [sampleHolding] 0 := by
    have hlist : activeHoldings [sampleHolding] = [sampleHolding] := by
      simp [activeHoldings, sampleHolding, clockInv, List.filter_cons]
    rw [totalPortfolioValue, hlist]
    norm_num [sampleHolding, h1]
  exact ((allocation_percentages [sampleHolding] 0).1 hpos).1

lemma interpolatedValue_at_maturity (inv : Investment)
    (hm : inv.invested_at < inv.maturity_date) :
    interpolatedValue inv inv.maturity_date = inv.expected_return := by
  simp only [interpolatedValue]
  rw [if_neg (by linarith), if_pos (le_refl _)]

/-- C10: a cancelled investment is valued exactly as an otherwise-identical
active one — `getCurrentValue` interpolates identically (reaching
`expected_return` at `maturity_date`), and `getDaysToMaturity` still
counts down via the ceiling formula instead of returning 0. -/
theorem cancelled_same_valuation (inv : Investment) (t : ℚ) :
    getCurrentValue { inv with status := .cancelled } t
      = getCurrentValue { inv with status := .active } t
    ∧ getDaysToMaturity { inv with status := .cancelled } t
      = max 0 ⌈(inv.maturity_date - t) / 86400000⌉
    ∧ getDaysToMaturity { inv with status := .cancelled } t
      = getDaysToMaturity { inv with status := .active } t
    ∧ (inv.invested_at < inv.maturity_date →
        getCurrentValue { inv with status := .cancelled } inv.maturity_date
          = inv.expected_return) := by
  refine ⟨?_, ?_, ?_, fun hm => ?_⟩
  · rcases ha : inv.actual_return with _ | r <;>
      simp [getCurrentValue, interpolatedValue, ha]
  · simp [getDaysToMaturity]
  · simp [getDaysToMaturity]
  · rw [getCurrentValue_eq_interpolated _ _ (by simp)]
    have h := interpolatedValue_at_maturity { inv with status := .cancelled }
      (by simpa using hm)
    simpa using h

/-- Witness for C10: the cancelled copy of `clockInv` is valued like the
active original mid-term, and returns `expected_return` at maturity. -/
theorem cancelled_same_valuation_witness :
    getCurrentValue { clockInv with status := .cancelled } 86400000
      = getCurrentValue { clockInv with status := .active } 86400000
    ∧ getCurrentValue { clockInv with status := .cancelled }
        clockInv.maturity_date = clockInv.expected_return := by
  have h := cancelled_same_valuation clockInv 86400000
  exact ⟨h.1, h.2.2.2 (by norm_num [clockInv])⟩

end GripInvest
